import Mathlib

/-!
Shallow embedding of `kern/monitor.c`, the JOS kernel monitor: the command
tokenizer/dispatcher (`runcmd`), the display-attribute command (`mon_chcolor`),
the breakpoint continuation commands (`mon_continue`, `mon_si`) and the stack
unwinder (`mon_backtrace`).  Machine words are modelled as `Nat` with explicit
32-bit masking where the C code relies on fixed width; raw memory is a function
`Nat → Nat` giving the 32-bit word stored at each address; the external symbol
resolver `debuginfo_eip` is a parameter `Nat → Eipdebuginfo`.
-/

namespace Monitor

/-- The separator set `#define WHITESPACE "\t\r\n "` from monitor.c. -/
def WHITESPACE : List Char := ['\t', '\r', '\n', ' ']

/-- Test `strchr(WHITESPACE, c) != NULL`: `c` is a separator character. -/
def isWS (c : Char) : Bool := WHITESPACE.contains c

/-- The limit `#define MAXARGS 16` from monitor.c. -/
def MAXARGS : Nat := 16

/-- Dropping a prefix never lengthens a list (termination helper). -/
theorem dropWhile_len_le (p : Char → Bool) (l : List Char) :
    (l.dropWhile p).length ≤ l.length := by
  induction l with
  | nil => simp
  | cons c rest ih =>
    by_cases h : p c
    · simp only [List.dropWhile_cons, h, if_true, List.length_cons]
      omega
    · simp [List.dropWhile_cons, h]

/-- The argument-parsing loop of `runcmd`: gobble whitespace (the
`while (*buf && strchr(WHITESPACE, *buf)) *buf++ = 0;` loop, one separator per
recursive step), stop at end of buffer, refuse to save a token once
`argc == MAXARGS-1` (returning `none` models the `cprintf`+`return 0` abort),
otherwise save the token (`argv[argc++] = buf`) and scan past it
(`while (*buf && !strchr(WHITESPACE, *buf)) buf++;`).  The buffer is the list
of characters before the terminating NUL. -/
def tokenizeAux (buf : List Char) (argc : Nat) : Option (List (List Char)) :=
  match buf with
  | [] => some []
  | c :: rest =>
    if isWS c then tokenizeAux rest argc
    else if argc = MAXARGS - 1 then none
    else
      match tokenizeAux (rest.dropWhile (fun x => !(isWS x))) (argc + 1) with
      | none => none
      | some ts => some ((c :: rest.takeWhile (fun x => !(isWS x))) :: ts)
termination_by buf.length
decreasing_by
  · simp
  · have h := dropWhile_len_le (fun x => !(isWS x)) rest
    simp
    omega

/-- Specification-side description of "the whitespace-separated tokens of the
original line": the maximal runs of non-separator characters, in order.
Written from the spec's words, to be compared with `tokenizeAux`. -/
def specTokens (buf : List Char) : List (List Char) :=
  match buf with
  | [] => []
  | c :: rest =>
    if isWS c then specTokens rest
    else (c :: rest.takeWhile (fun x => !(isWS x))) :: specTokens (rest.dropWhile (fun x => !(isWS x)))
termination_by buf.length
decreasing_by
  · simp
  · have h := dropWhile_len_le (fun x => !(isWS x)) rest
    simp
    omega

/-- Full characterization of the parsing loop against the specification-side
split: starting from any in-range `argc`, the loop returns exactly the
whitespace-separated tokens when they fit below `MAXARGS`, and aborts with the
too-many-arguments error otherwise. -/
theorem tokenizeAux_spec :
    ∀ (n : Nat) (buf : List Char), buf.length ≤ n → ∀ argc, argc ≤ MAXARGS - 1 →
    tokenizeAux buf argc =
      if argc + (specTokens buf).length ≤ MAXARGS - 1 then some (specTokens buf)
      else none := by
  intro n
  induction n with
  | zero =>
    intro buf hb argc ha
    have hb0 : buf = [] := List.length_eq_zero.mp (Nat.le_zero.mp hb)
    subst hb0
    simp [tokenizeAux, specTokens, ha]
  | succ n ih =>
    intro buf hb argc ha
    match buf with
    | [] => simp [tokenizeAux, specTokens, ha]
    | c :: rest =>
      have hrest : rest.length ≤ n := by
        simp only [List.length_cons] at hb
        omega
      by_cases hws : isWS c
      · rw [tokenizeAux, specTokens]
        simp only [hws, if_true]
        exact ih rest hrest argc ha
      · by_cases hmax : argc = MAXARGS - 1
        · rw [tokenizeAux, specTokens]
          simp only [hws, if_false, hmax, if_true, Bool.false_eq_true]
          rw [if_neg]
          simp only [List.length_cons, MAXARGS]
          omega
        · have hdrop : (rest.dropWhile (fun x => !(isWS x))).length ≤ n :=
            le_trans (dropWhile_len_le _ rest) hrest
          have ha1 : argc + 1 ≤ MAXARGS - 1 := by
            simp only [MAXARGS] at ha hmax ⊢
            omega
          rw [tokenizeAux, specTokens]
          simp only [hws, Bool.false_eq_true, if_false, hmax]
          rw [ih _ hdrop (argc + 1) ha1]
          by_cases hfit :
              argc + 1 + (specTokens (rest.dropWhile (fun x => !(isWS x)))).length ≤ MAXARGS - 1
          · rw [if_pos hfit, if_pos]
            simp only [List.length_cons]
            omega
          · rw [if_neg hfit, if_neg]
            simp only [List.length_cons]
            omega

/-- The names of the entries of the static `commands[]` table of monitor.c, in
registration order. -/
def commandNames : List (List Char) :=
  [String.toList "help", String.toList "kerninfo", String.toList "backtrace",
   String.toList "chcolor", String.toList "continue", String.toList "si"]

/-- The four ways `runcmd` can proceed after parsing: abort on too many
tokens, silently accept an empty line, report an unknown command, or invoke
the matching handler with the full token list (command name first). -/
inductive RunOutcome where
  | tooMany : RunOutcome
  | empty : RunOutcome
  | unknown : List Char → RunOutcome
  | invoke : List Char → List (List Char) → RunOutcome
deriving DecidableEq

/-- The dispatch decision of `runcmd` on a line buffer. -/
def runcmdOutcome (buf : List Char) : RunOutcome :=
  match tokenizeAux buf 0 with
  | none => RunOutcome.tooMany
  | some [] => RunOutcome.empty
  | some (c :: args) =>
    if commandNames.contains c then RunOutcome.invoke c (c :: args)
    else RunOutcome.unknown c

/-- Status returned by `runcmd` itself on each outcome; `none` marks the
invoke case, where `runcmd` returns the handler's own status instead. -/
def outcomeStatus : RunOutcome → Option Int
  | RunOutcome.tooMany => some 0
  | RunOutcome.empty => some 0
  | RunOutcome.unknown _ => some 0
  | RunOutcome.invoke _ _ => none

/-- The formatted `cprintf("Too many arguments (max %d)\n", MAXARGS)` text. -/
def tooManyMsg : String := "Too many arguments (max 16)\n"

/-- Messages printed by `runcmd` itself on each outcome (the unknown-command
message elides the echoed name). -/
def outcomeReport : RunOutcome → List String
  | RunOutcome.tooMany => [tooManyMsg]
  | RunOutcome.empty => []
  | RunOutcome.unknown _ => ["Unknown command\n"]
  | RunOutcome.invoke _ _ => []

/-- The `switch(argv[1][0])` of `mon_chcolor`: background contribution. -/
def bgOf (c : Char) : Nat :=
  match c with
  | 'r' => 1 <<< 6
  | 'g' => 1 <<< 5
  | 'b' => 1 <<< 4
  | 'w' => 0x70
  | _ => 0x00

/-- The `switch(argv[1][1])` of `mon_chcolor`: foreground contribution. -/
def ftOf (c : Char) : Nat :=
  match c with
  | 'r' => 1 <<< 2
  | 'g' => 1 <<< 1
  | 'b' => 1
  | 'w' => 0x07
  | _ => 0x00

/-- Result of one `mon_chcolor` call: the console messages printed and the
value of the shared display state `CGA_COLOR_MASK` afterwards. -/
structure ChcolorResult where
  out : List String
  mask : Nat
deriving DecidableEq

/-- Handler `mon_chcolor` from monitor.c.  `argv` is the token list (command name
first, so `argc = argv.length`), `mask0` the value of `CGA_COLOR_MASK` on
entry.  An argument of exactly two characters is the `[c0, c1]` branch
(`strlen(argv[1]) == 2`); the trailing message mirrors the unconditional
`cprintf("Color changed\n")` at the end of the function. -/
def mon_chcolor (argv : List (List Char)) (mask0 : Nat) : ChcolorResult :=
  match argv with
  | [_, a] =>
    match a with
    | [c0, c1] =>
      { out := ["Color changed\n"], mask := (bgOf c0 ||| ftOf c1) <<< 8 }
    | _ => { out := ["Argument error", "Color changed\n"], mask := mask0 }
  | _ => { out := ["Argument number error\n", "Color changed\n"], mask := mask0 }

/-- The x86 trap flag (single-step control bit), bit 8 of EFLAGS.  The
constant `FL_TF = 0x00000100` lives in inc/mmu.h, outside this snapshot; the
spec calls it the single-step control bit of the flags register. -/
def FL_TF : Nat := 0x00000100

/-- Modelled from the spec: `struct Trapframe` is declared in inc/trap.h,
which is not part of this snapshot.  The spec describes the execution context
as an opaque structure containing a flags register with a single-step control
bit plus the remaining saved CPU state; the monitor touches only
`tf->tf_eflags`, so the rest is kept abstract as one field. -/
structure Trapframe where
  tf_eflags : Nat
  tf_rest : Nat
deriving DecidableEq

/-- Result of one `mon_continue`/`mon_si` call: messages printed, the context
handed to `env_pop_tf` (`none` when the resume primitive is not invoked), the
display state afterwards (these handlers never touch it), and the returned
status. -/
structure ContResult where
  out : List String
  resumed : Option Trapframe
  mask : Nat
  status : Int
deriving DecidableEq

/-- Handler `mon_continue` from monitor.c: with a null context, report and return 0;
otherwise clear FL_TF (`tf->tf_eflags &= ~FL_TF`, a 32-bit and with
`0xFFFFFEFF`) and hand the context to `env_pop_tf`. -/
def mon_continue (tf : Option Trapframe) (mask0 : Nat) : ContResult :=
  match tf with
  | none => { out := ["Not a breakpoint\n"], resumed := none, mask := mask0, status := 0 }
  | some t =>
    { out := [],
      resumed := some { t with tf_eflags := t.tf_eflags &&& 0xFFFFFEFF },
      mask := mask0, status := 0 }

/-- Handler `mon_si` from monitor.c: with a null context, report and return 0;
otherwise print, set FL_TF (`tf->tf_eflags |= FL_TF`) and hand the context to
`env_pop_tf`. -/
def mon_si (tf : Option Trapframe) (mask0 : Nat) : ContResult :=
  match tf with
  | none => { out := ["Not a breakpoint\n"], resumed := none, mask := mask0, status := 0 }
  | some t =>
    { out := ["Single Step\n"],
      resumed := some { t with tf_eflags := t.tf_eflags ||| FL_TF },
      mask := mask0, status := 0 }

/-- The fields of `struct Eipdebuginfo` (kern/kdebug.h) that `mon_backtrace`
reads; produced by the external resolver `debuginfo_eip`, which fills in
placeholders itself when resolution fails. -/
structure Eipdebuginfo where
  eip_file : String
  eip_line : Nat
  eip_fn_name : List Char
  eip_fn_namelen : Nat
  eip_fn_addr : Nat
deriving DecidableEq

/-- One frame record emitted by `mon_backtrace`: the two `cprintf` lines per
iteration print exactly these values. -/
structure StackFrame where
  ebp : Nat
  eip : Nat
  arg0 : Nat
  arg1 : Nat
  arg2 : Nat
  arg3 : Nat
  arg4 : Nat
  file : String
  line : Nat
  fn : List Char
  fn_offset : Nat
deriving DecidableEq

/-- The record one iteration of the `mon_backtrace` loop emits at frame
pointer `ebp`: the return address is the word at `ebp+4`, the five argument
words are at `ebp+8 .. ebp+24`, the symbol identification comes from the
resolver at the return address, the function name is the `eip_fn_namelen`-char
copy into `funn`, and the offset is the 32-bit difference
`eip - info.eip_fn_addr`. -/
def frameAt (mem : Nat → Nat) (res : Nat → Eipdebuginfo) (ebp : Nat) : StackFrame :=
  let eip := mem (ebp + 4)
  let info := res eip
  { ebp := ebp
    eip := eip
    arg0 := mem (ebp + 8)
    arg1 := mem (ebp + 12)
    arg2 := mem (ebp + 16)
    arg3 := mem (ebp + 20)
    arg4 := mem (ebp + 24)
    file := info.eip_file
    line := info.eip_line
    fn := info.eip_fn_name.take info.eip_fn_namelen
    fn_offset := (eip + 2 ^ 32 - info.eip_fn_addr) % 2 ^ 32 }

/-- The `while (ebp != 0)` loop of `mon_backtrace`, with an explicit fuel
budget standing for the number of iterations still allowed: each iteration
emits the frame record at `ebp` and advances via `ebp = *(unsigned*)ebp` (the
saved caller frame pointer stored at `ebp`).  `none` means the budget ran out
before the chain reached the terminal `ebp == 0`; the C loop itself has no
such bound and simply keeps walking. -/
def backtraceFrames (mem : Nat → Nat) (res : Nat → Eipdebuginfo) :
    Nat → Nat → Option (List StackFrame)
  | 0, ebp => if ebp = 0 then some [] else none
  | fuel + 1, ebp =>
    if ebp = 0 then some []
    else
      match backtraceFrames mem res fuel (mem ebp) with
      | none => none
      | some fs => some (frameAt mem res ebp :: fs)

/-- Iteration of the frame-pointer chain: the frame pointer reached after
loading the saved caller frame pointer `k` times. -/
def fpIter (mem : Nat → Nat) : Nat → Nat → Nat
  | 0, ebp => ebp
  | k + 1, ebp => fpIter mem k (mem ebp)

/-- Size of the local buffer `char funn[100]` in `mon_backtrace`. -/
def funnSize : Nat := 100

/-- The indices of `funn` written while copying a resolved name of reported
length `namelen`: the copy loop writes `funn[0] .. funn[namelen-1]` and then
`funn[info.eip_fn_namelen] = 0` writes the terminating NUL at `namelen`. -/
def funnWriteIndices (namelen : Nat) : List Nat :=
  List.range namelen ++ [namelen]

/-- The backtrace walk started at `ebp` never reaches the terminal state, no
matter how many iterations it is allowed. -/
def walkDiverges (mem : Nat → Nat) (res : Nat → Eipdebuginfo) (ebp : Nat) : Prop :=
  ∀ fuel : Nat, backtraceFrames mem res fuel ebp = none

/-! Concrete fixtures used by witnesses and counterexamples. -/

/-- A synthetic two-frame chain: the saved caller frame pointer at 100 is 200,
the one at 200 is 0 (terminal); every other address holds an arbitrary word. -/
def chainMem : Nat → Nat := fun a =>
  if a = 100 then 200
  else if a = 200 then 0
  else a + 1000

/-- A fixed resolver answer standing for either a resolved symbol or the
placeholder `debuginfo_eip` fills in on failure. -/
def constInfo : Eipdebuginfo :=
  { eip_file := "kern/init.c"
    eip_line := 7
    eip_fn_name := String.toList "test_backtrace"
    eip_fn_namelen := 14
    eip_fn_addr := 3 }

/-- A resolver returning the same identification for every address. -/
def constRes : Nat → Eipdebuginfo := fun _ => constInfo

/-- A corrupted chain: every address holds the saved frame pointer 1, so the
walk from frame pointer 1 loops on itself and never reaches 0. -/
def loopMem : Nat → Nat := fun _ => 1

/-- An input line of sixteen one-character tokens, one more than the fifteen
`runcmd` accepts. -/
def longBuf : List Char :=
  ['a', ' ', 'b', ' ', 'c', ' ', 'd', ' ', 'e', ' ', 'f', ' ', 'g', ' ', 'h', ' ',
   'i', ' ', 'j', ' ', 'k', ' ', 'l', ' ', 'm', ' ', 'n', ' ', 'o', ' ', 'p']

/-- C2: with a non-null context, `mon_si` hands the resume primitive a context
whose flags register has the single-step bit (FL_TF, bit 8) set, and
`mon_continue` hands it one with that bit cleared. -/
theorem si_sets_tf_continue_clears (t : Trapframe) (mask0 : Nat) :
    ((mon_si (some t) mask0).resumed.map fun u => u.tf_eflags.testBit 8) = some true ∧
    ((mon_continue (some t) mask0).resumed.map fun u => u.tf_eflags.testBit 8) = some false := by
  have h256 : Nat.testBit 256 8 = true := by decide
  have hmask : Nat.testBit 4294967039 8 = false := by decide
  constructor
  · simp [mon_si, FL_TF, Nat.testBit_lor, h256]
  · simp [mon_continue, Nat.testBit_land, hmask]

/-- C4: `mon_continue` and `mon_si` with a null context print exactly
"Not a breakpoint", do not hand any context to the resume primitive, leave the
display state unchanged, and return the non-negative status 0, so the console
loop continues. -/
theorem continue_si_no_context (mask0 : Nat) :
    mon_continue none mask0 =
      { out := ["Not a breakpoint\n"], resumed := none, mask := mask0, status := 0 } ∧
    mon_si none mask0 =
      { out := ["Not a breakpoint\n"], resumed := none, mask := mask0, status := 0 } ∧
    0 ≤ (mon_continue none mask0).status ∧ 0 ≤ (mon_si none mask0).status := by
  refine ⟨rfl, rfl, ?_, ?_⟩ <;> simp [mon_continue, mon_si]

/-- C5: `chcolor rg` stores the attribute combining the background-red bit
(1 shifted left by 6) and the foreground-green bit (1 shifted left by 1),
placed in the high byte of the shared display state; `chcolor xx` stores 0,
since both characters fall outside the closed set and contribute zero. -/
theorem chcolor_rg_xx (cmd : List Char) (mask0 : Nat) :
    mon_chcolor [cmd, ['r', 'g']] mask0 =
      { out := ["Color changed\n"], mask := ((1 <<< 6) ||| (1 <<< 1)) <<< 8 } ∧
    mon_chcolor [cmd, ['x', 'x']] mask0 =
      { out := ["Color changed\n"], mask := 0 } := by
  constructor <;> simp [mon_chcolor, bgOf, ftOf]

/-- C8: a `chcolor` invocation whose argument count is not exactly one
(token count not exactly two) or whose single argument is not exactly two
characters long reports an error and leaves the shared display state
unchanged. -/
theorem chcolor_bad_args (argv : List (List Char)) (mask0 : Nat)
    (h : argv.length ≠ 2 ∨ ∃ c a, argv = [c, a] ∧ a.length ≠ 2) :
    (mon_chcolor argv mask0).mask = mask0 ∧
    ((mon_chcolor argv mask0).out = ["Argument number error\n", "Color changed\n"] ∨
     (mon_chcolor argv mask0).out = ["Argument error", "Color changed\n"]) := by
  rcases argv with _ | ⟨c, _ | ⟨a, _ | ⟨x, rest3⟩⟩⟩
  · simp [mon_chcolor]
  · simp [mon_chcolor]
  · have hlen : a.length ≠ 2 := by
      rcases h with h | ⟨c2, a2, heq, hl⟩
      · simp at h
      · simp only [List.cons.injEq, and_true] at heq
        rw [heq.2]
        exact hl
    rcases a with _ | ⟨a0, _ | ⟨a1, _ | ⟨a2, arest⟩⟩⟩
    · simp [mon_chcolor]
    · simp [mon_chcolor]
    · simp at hlen
    · simp [mon_chcolor]
  · simp [mon_chcolor]

/-- C8 witness: `chcolor r` (one-character argument) leaves the mask at 7 and
reports an argument error. -/
theorem chcolor_bad_args_witness :
    (mon_chcolor [['c'], ['r']] 7).mask = 7 ∧
    ((mon_chcolor [['c'], ['r']] 7).out = ["Argument number error\n", "Color changed\n"] ∨
     (mon_chcolor [['c'], ['r']] 7).out = ["Argument error", "Color changed\n"]) :=
  chcolor_bad_args [['c'], ['r']] 7 (Or.inr ⟨['c'], ['r'], rfl, by decide⟩)

/-- C9: the copy of the resolved function name into the 100-byte local buffer
`funn` trusts the resolver-reported length: for a reported length of 100, the
terminating NUL is written at index 100, outside the buffer's bounds. -/
theorem backtrace_funn_overflow :
    ∃ namelen, funnSize ≤ namelen ∧
      ∃ i, i ∈ funnWriteIndices namelen ∧ funnSize ≤ i := by
  refine ⟨100, le_refl _, 100, ?_, le_refl _⟩
  simp [funnWriteIndices]

/-- C6: on any line whose whitespace-separated tokens number at most
`MAXARGS - 1`, the `runcmd` tokenizer produces exactly those tokens, with
their content and order preserved (so in particular a token containing no
whitespace round-trips unchanged). -/
theorem tokenize_round_trip (buf : List Char)
    (h : (specTokens buf).length ≤ MAXARGS - 1) :
    tokenizeAux buf 0 = some (specTokens buf) := by
  rw [tokenizeAux_spec buf.length buf (le_refl _) 0 (by simp [MAXARGS]), if_pos]
  omega

/-- C6 witness: the line "si  x1" tokenizes to its two tokens. -/
theorem tokenize_round_trip_witness :
    tokenizeAux ['s', 'i', ' ', ' ', 'x', '1'] 0 =
      some (specTokens ['s', 'i', ' ', ' ', 'x', '1']) :=
  tokenize_round_trip ['s', 'i', ' ', ' ', 'x', '1']
    (by simp [specTokens, isWS, WHITESPACE, MAXARGS])

/-- C7: on any line with more than `MAXARGS - 1` whitespace-separated tokens,
`runcmd` aborts parsing with the too-many-arguments report, invokes no command
handler, and itself returns the non-negative status 0, so the console loop
keeps running. -/
theorem too_many_args_aborts (buf : List Char)
    (h : MAXARGS - 1 < (specTokens buf).length) :
    runcmdOutcome buf = RunOutcome.tooMany ∧
    outcomeReport (runcmdOutcome buf) = [tooManyMsg] ∧
    outcomeStatus (runcmdOutcome buf) = some 0 := by
  have htok : tokenizeAux buf 0 = none := by
    rw [tokenizeAux_spec buf.length buf (le_refl _) 0 (by simp [MAXARGS]), if_neg]
    omega
  have hout : runcmdOutcome buf = RunOutcome.tooMany := by
    simp [runcmdOutcome, htok]
  refine ⟨hout, ?_, ?_⟩ <;> rw [hout] <;> rfl

/-- C7 witness: a line of sixteen tokens is rejected with the
too-many-arguments report and status 0. -/
theorem too_many_args_aborts_witness :
    runcmdOutcome longBuf = RunOutcome.tooMany ∧
    outcomeReport (runcmdOutcome longBuf) = [tooManyMsg] ∧
    outcomeStatus (runcmdOutcome longBuf) = some 0 :=
  too_many_args_aborts longBuf
    (by simp [longBuf, specTokens, isWS, WHITESPACE, MAXARGS])

/-- C1: on a synthetic frame-pointer chain that reaches the terminal frame
pointer 0 after exactly `N` loads of the saved caller frame pointer, the
backtrace walk emits exactly `N` frame records, innermost first: the `k`-th
record is the one produced at the `k`-th frame pointer of the chain, carrying
that frame pointer, the return address stored immediately above it, the five
words above that, and the resolver's identification. -/
theorem backtrace_emits_chain (mem : Nat → Nat) (res : Nat → Eipdebuginfo)
    (N fuel ebp : Nat)
    (hterm : fpIter mem N ebp = 0)
    (hnz : ∀ k, k < N → fpIter mem k ebp ≠ 0)
    (hfuel : N ≤ fuel) :
    backtraceFrames mem res fuel ebp =
      some ((List.range N).map fun k => frameAt mem res (fpIter mem k ebp)) := by
  induction N generalizing ebp fuel with
  | zero =>
    simp only [fpIter] at hterm
    subst hterm
    cases fuel <;> simp [backtraceFrames]
  | succ N ih =>
    have hne : ebp ≠ 0 := by
      have := hnz 0 (Nat.succ_pos N)
      simpa [fpIter] using this
    cases fuel with
    | zero => omega
    | succ fuel =>
      have hterm2 : fpIter mem N (mem ebp) = 0 := hterm
      have hnz2 : ∀ k, k < N → fpIter mem k (mem ebp) ≠ 0 := fun k hk =>
        hnz (k + 1) (by omega)
      rw [backtraceFrames, if_neg hne, ih fuel (mem ebp) hterm2 hnz2 (by omega)]
      rw [List.range_succ_eq_map, List.map_cons, List.map_map]
      simp [Function.comp, fpIter]

/-- C1 witness: the two-frame chain 100 → 200 → 0 yields exactly the two
records at frame pointers 100 and 200, innermost first. -/
theorem backtrace_emits_chain_witness :
    backtraceFrames chainMem constRes 2 100 =
      some ((List.range 2).map fun k => frameAt chainMem constRes (fpIter chainMem k 100)) :=
  backtrace_emits_chain chainMem constRes 2 2 100 (by decide) (by decide) (by decide)

/-- C3 counterexample: the walk has no iteration bound and no frame-pointer
range validation; on the corrupted chain whose saved frame pointer always
points back at frame pointer 1 it never reaches the terminal state, however
many iterations it is allowed. -/
theorem backtrace_walk_unbounded : walkDiverges loopMem constRes 1 := by
  intro fuel
  induction fuel with
  | zero => simp [backtraceFrames, loopMem]
  | succ fuel ih => simp [backtraceFrames, loopMem, ih]

/-- C3 amended: the walk performs no bounding or validation at all; whenever
the frame-pointer chain never reaches 0, the walk fails to terminate within
any iteration budget. -/
theorem backtrace_no_bound (mem : Nat → Nat) (res : Nat → Eipdebuginfo)
    (ebp fuel : Nat) (h : ∀ k, fpIter mem k ebp ≠ 0) :
    backtraceFrames mem res fuel ebp = none := by
  induction fuel generalizing ebp with
  | zero =>
    have h0 : ebp ≠ 0 := by simpa [fpIter] using h 0
    simp [backtraceFrames, h0]
  | succ fuel ih =>
    have h0 : ebp ≠ 0 := by simpa [fpIter] using h 0
    have h1 : ∀ k, fpIter mem k (mem ebp) ≠ 0 := fun k => h (k + 1)
    simp [backtraceFrames, h0, ih (mem ebp) h1]

/-- Every step of the self-looping corrupted chain stays at frame pointer 1. -/
theorem fpIter_loopMem (k : Nat) : fpIter loopMem k 1 = 1 := by
  induction k with
  | zero => rfl
  | succ k ih => simpa [fpIter, loopMem] using ih

/-- C3 amended claim witness: with an iteration budget of 5, the walk on the
self-looping chain still has not terminated. -/
theorem backtrace_no_bound_witness :
    backtraceFrames loopMem constRes 5 1 = none :=
  backtrace_no_bound loopMem constRes 1 5
    (fun k => by rw [fpIter_loopMem k]; exact one_ne_zero)

/-- C10: with a non-null context whose 32-bit flags register is in range,
`mon_continue` and `mon_si` hand the resume primitive a context that differs
from the input only in the flags register, and within the flags register only
in bit 8 (FL_TF): cleared by `mon_continue`, set by `mon_si`; every other bit
and the whole remaining saved state are unchanged. -/
theorem continue_si_frame_effect (t : Trapframe) (mask0 : Nat)
    (h : t.tf_eflags < 2 ^ 32) :
    (∃ u, (mon_continue (some t) mask0).resumed = some u ∧
      u.tf_rest = t.tf_rest ∧
      u.tf_eflags.testBit 8 = false ∧
      ∀ k, k ≠ 8 → u.tf_eflags.testBit k = t.tf_eflags.testBit k) ∧
    (∃ u, (mon_si (some t) mask0).resumed = some u ∧
      u.tf_rest = t.tf_rest ∧
      u.tf_eflags.testBit 8 = true ∧
      ∀ k, k ≠ 8 → u.tf_eflags.testBit k = t.tf_eflags.testBit k) := by
  have hmask8 : Nat.testBit 4294967039 8 = false := by decide
  have h2568 : Nat.testBit 256 8 = true := by decide
  have hmaskLow : ∀ k, k < 32 → k ≠ 8 → Nat.testBit 4294967039 k = true := by decide
  have h256Low : ∀ k, k ≠ 8 → Nat.testBit 256 k = false := by
    intro k hk
    rcases Nat.lt_or_ge k 32 with hlt | hge
    · revert hk
      revert k
      decide
    · exact Nat.testBit_eq_false_of_lt
        (lt_of_lt_of_le (by norm_num) (Nat.pow_le_pow_right (by norm_num) hge))
  constructor
  · refine ⟨{ t with tf_eflags := t.tf_eflags &&& 4294967039 }, rfl, rfl, ?_, ?_⟩
    · simp [Nat.testBit_land, hmask8]
    · intro k hk
      rcases Nat.lt_or_ge k 32 with hlt | hge
      · simp [Nat.testBit_land, hmaskLow k hlt hk]
      · have hkbig : 2 ^ 32 ≤ 2 ^ k := Nat.pow_le_pow_right (by norm_num) hge
        have ht : t.tf_eflags.testBit k = false :=
          Nat.testBit_eq_false_of_lt (lt_of_lt_of_le h hkbig)
        have htm : (t.tf_eflags &&& 4294967039).testBit k = false := by
          rw [Nat.testBit_land, ht]
          simp
        rw [ht, htm]
  · refine ⟨{ t with tf_eflags := t.tf_eflags ||| 256 }, rfl, rfl, ?_, ?_⟩
    · simp [Nat.testBit_lor, h2568]
    · intro k hk
      simp [Nat.testBit_lor, h256Low k hk]

/-- C10 witness: at the concrete context with flags 0xFFFF, both commands
change only bit 8. -/
theorem continue_si_frame_effect_witness :
    (∃ u, (mon_continue (some { tf_eflags := 65535, tf_rest := 9 }) 0).resumed = some u ∧
      u.tf_rest = ({ tf_eflags := 65535, tf_rest := 9 } : Trapframe).tf_rest ∧
      u.tf_eflags.testBit 8 = false ∧
      ∀ k, k ≠ 8 → u.tf_eflags.testBit k =
        ({ tf_eflags := 65535, tf_rest := 9 } : Trapframe).tf_eflags.testBit k) ∧
    (∃ u, (mon_si (some { tf_eflags := 65535, tf_rest := 9 }) 0).resumed = some u ∧
      u.tf_rest = ({ tf_eflags := 65535, tf_rest := 9 } : Trapframe).tf_rest ∧
      u.tf_eflags.testBit 8 = true ∧
      ∀ k, k ≠ 8 → u.tf_eflags.testBit k =
        ({ tf_eflags := 65535, tf_rest := 9 } : Trapframe).tf_eflags.testBit k) :=
  continue_si_frame_effect { tf_eflags := 65535, tf_rest := 9 } 0 (by norm_num)

/-- C2 witness: at the concrete context with flags 0, `mon_si` resumes with
bit 8 set and `mon_continue` with bit 8 clear. -/
theorem si_sets_tf_continue_clears_witness :
    ((mon_si (some { tf_eflags := 0, tf_rest := 0 }) 0).resumed.map
        fun u => u.tf_eflags.testBit 8) = some true ∧
    ((mon_continue (some { tf_eflags := 0, tf_rest := 0 }) 0).resumed.map
        fun u => u.tf_eflags.testBit 8) = some false :=
  si_sets_tf_continue_clears { tf_eflags := 0, tf_rest := 0 } 0

/-- C4 witness: concrete display state 3 is preserved on the no-context path. -/
theorem continue_si_no_context_witness :
    mon_continue none 3 =
      { out := ["Not a breakpoint\n"], resumed := none, mask := 3, status := 0 } ∧
    mon_si none 3 =
      { out := ["Not a breakpoint\n"], resumed := none, mask := 3, status := 0 } ∧
    0 ≤ (mon_continue none 3).status ∧ 0 ≤ (mon_si none 3).status :=
  continue_si_no_context 3

/-- C5 witness: the concrete invocations with command token "chcolor" and
initial display state 5. -/
theorem chcolor_rg_xx_witness :
    mon_chcolor [String.toList "chcolor", ['r', 'g']] 5 =
      { out := ["Color changed\n"], mask := ((1 <<< 6) ||| (1 <<< 1)) <<< 8 } ∧
    mon_chcolor [String.toList "chcolor", ['x', 'x']] 5 =
      { out := ["Color changed\n"], mask := 0 } :=
  chcolor_rg_xx (String.toList "chcolor") 5

end Monitor
